import Mathlib

/-!
Verification development for the `vrec` job recorder (src/recorder.rs,
src/disk_stat.rs).  The filesystem is modelled as explicit state: each job
directory is a record of the observations the recorder code can make of it
(whether the path is a directory, the outcome of reading its entry list, the
contents of `info/pid.txt`, the parse outcome of `info/invocation.json`, and
whether `fs::remove_dir_all` on it would fail).  The OS liveness probe
`libc::kill(pid, 0) == 0` is modelled as an arbitrary boolean function of the
pid.
-/

namespace Vrec

/-- JSON values as produced by `serde_json` (only the constructors the
recorder uses). -/
inductive Json where
  | null : Json
  | str : String → Json
  | num : Int → Json
  | arr : List Json → Json
  | obj : List (String × Json) → Json

/-- The observable outcome of `File::open` followed by `read_to_string`
on one path: the open can fail, the read can fail, or we get the full
contents. -/
inductive FileRead where
  | absent : FileRead
  | unreadable : FileRead
  | content : String → FileRead
deriving DecidableEq

/-- One entry yielded by `fs::read_dir`'s iterator, after `entry.path()`.
`fileName` models `path.file_name().and_then(|os_str| os_str.to_str())`:
`none` when the name is not valid UTF-8.  `isFile` and `isDir` model
`path.is_file()` and `path.is_dir()`. -/
structure DirEntry where
  fileName : Option String
  isFile : Bool
  isDir : Bool
deriving DecidableEq

/-- The observable state of one job directory.  `readDir` is the outcome of
`fs::read_dir` on the job root (`none` = unreadable; inside the list, `none`
models an `Err` entry, which `Iterator::flatten` skips).  `invocationFile`
models `open_file("info/invocation.json")` then `serde_json::from_reader`:
outer `none` = open failed, inner `none` = parse failed.  `removeFails` is
whether `fs::remove_dir_all` on this directory would return an error. -/
structure JobDirState where
  isDir : Bool
  readDir : Option (List (Option DirEntry))
  pidTxt : FileRead
  invocationFile : Option (Option Json)
  removeFails : Bool

/-- The filesystem state visible to the `Recorder`: the outcome of
`read_dir` on the work directory root, the state of each (potential) job
directory keyed by its directory name, and the OS probe
`libc::kill(pid, 0) == 0`. -/
structure FS where
  rootRead : Option (List (Option DirEntry))
  dirs : String → JobDirState
  kill0 : Int → Bool

/-- The state of a job directory that has just been removed by
`fs::remove_dir_all`: the path is no longer a directory, reads fail, and a
further `remove_dir_all` on it fails with `NotFound`. -/
def removedDirState : JobDirState :=
  { isDir := false, readDir := none, pidTxt := .absent,
    invocationFile := none, removeFails := true }

/-- Models Rust `name.starts_with('.')`: whether the first character is a
dot. -/
def startsWithDot (s : String) : Bool :=
  match s.data with
  | [] => false
  | c :: _ => c == '.'

/-- JobDir::file_names (src/recorder.rs:210-230): read the job root
(`vec![]` when unreadable), flatten away `Err` entries, keep regular files,
keep UTF-8 names not starting with `.`. -/
def JobDir.file_names (d : JobDirState) : List String :=
  match d.readDir with
  | none => []
  | some entries =>
    entries.filterMap fun e =>
      match e with
      | none => none
      | some ent =>
        if ent.isFile then
          match ent.fileName with
          | some name => if startsWithDot name then none else some name
          | none => none
        else none

/-- Models Rust `str::parse::<i32>`: an optional `+` or `-` sign followed by
one or more ASCII digits, with the value required to fit in `i32`
(out-of-range input is a parse error, not a wrapped value). -/
def parseI32 (s : String) : Option Int :=
  let p : Int × List Char :=
    match s.data with
    | '-' :: rest => (-1, rest)
    | '+' :: rest => (1, rest)
    | rest => (1, rest)
  if p.2 = [] then none
  else if p.2.all (fun c => c.isDigit) then
    let n : Nat := p.2.foldl (fun acc c => acc * 10 + (c.toNat - '0'.toNat)) 0
    let v : Int := p.1 * n
    if -(2 ^ 31) ≤ v ∧ v < 2 ^ 31 then some v else none
  else none

/-- Models Rust `str::trim_end`: drop trailing whitespace (the program only
ever writes an ASCII decimal followed by a newline, so ASCII whitespace
suffices). -/
def rustTrimEnd (s : String) : String :=
  ⟨(s.data.reverse.dropWhile (fun c => c.isWhitespace)).reverse⟩

/-- Job::pid (src/recorder.rs:136-144): open `info/pid.txt`
(`"could not open file"` on failure), read it (`"read failed"` on failure),
then `trim_end` and parse as `i32` (`"parse failed"` on failure). -/
def Job.pid (d : JobDirState) : Except String Int :=
  match d.pidTxt with
  | .absent => .error "could not open file"
  | .unreadable => .error "read failed"
  | .content s =>
    match parseI32 (rustTrimEnd s) with
    | some n => .ok n
    | none => .error "parse failed"

/-- Job::is_running (src/recorder.rs:101-109): on a parsed pid, probe with
`libc::kill(pid, 0) == 0`; on any error from `pid()`, log it and return
`false`. -/
def Job.is_running (kill0 : Int → Bool) (d : JobDirState) : Bool :=
  match Job.pid d with
  | .ok pid => kill0 pid
  | .error _ => false

/-- Job::invocation (src/recorder.rs:92-95): `open_file` then
`serde_json::from_reader`, with `.ok()?` at both steps. -/
def Job.invocation (d : JobDirState) : Option Json :=
  match d.invocationFile with
  | none => none
  | some r => r

/-- WorkDir::job_dirs (src/recorder.rs:160-180): read the root directory
(empty iterator when that fails), flatten away `Err` entries, keep entries
whose path `is_dir()`, and turn each UTF-8 file name verbatim into a
`JobId`.  A job is identified by its directory name, so the result is the
list of identifiers. -/
def WorkDir.job_dirs (fs : FS) : List String :=
  match fs.rootRead with
  | none => []
  | some entries =>
    entries.filterMap fun e =>
      match e with
      | none => none
      | some ent => if ent.isDir then ent.fileName else none

/-- Recorder::jobs (src/recorder.rs:35-40): one `Job` per entry of
`WorkDir::job_dirs`; a `Job` is determined by its identifier. -/
def Recorder.jobs (fs : FS) : List String :=
  WorkDir.job_dirs fs

/-- Recorder::job (src/recorder.rs:26-33): path-join the identifier under
the work directory and return `Some` exactly when that path `is_dir()`. -/
def Recorder.job (fs : FS) (id : String) : Option String :=
  if (fs.dirs id).isDir then some id else none

/-- The loop body condition of Recorder::prune_job_dirs:
`!job.is_running() && job.file_names().is_empty()`. -/
def pruneCond (kill0 : Int → Bool) (d : JobDirState) : Bool :=
  !Job.is_running kill0 d && (JobDir.file_names d).isEmpty

/-- The loop of Recorder::prune_job_dirs (src/recorder.rs:42-50) over the
pre-collected job list: for each job meeting the condition, attempt
`fs::remove_dir_all` (propagating its error with `?`), and thread the
filesystem mutation (the removed directory's state becomes
`removedDirState`).  Returns the identifiers removed together with the
final directory map. -/
def Recorder.pruneGo (kill0 : Int → Bool) :
    List String → (String → JobDirState) →
    Except Unit (List String × (String → JobDirState))
  | [], dirs => .ok ([], dirs)
  | id :: rest, dirs =>
    if pruneCond kill0 (dirs id) then
      if (dirs id).removeFails then .error ()
      else
        match Recorder.pruneGo kill0 rest
            (fun n => if n = id then removedDirState else dirs n) with
        | .ok (removed, dirs2) => .ok (id :: removed, dirs2)
        | .error e => .error e
    else Recorder.pruneGo kill0 rest dirs

/-- Recorder::prune_job_dirs (src/recorder.rs:42-50): iterate over
`self.jobs()` (collected up front) and remove each not-running, outputless
job directory, stopping at the first deletion error. -/
def Recorder.prune_job_dirs (fs : FS) :
    Except Unit (List String × (String → JobDirState)) :=
  Recorder.pruneGo fs.kill0 (Recorder.jobs fs) fs.dirs

/-- The JSON value built by `json!({ "command": command, "args": &args })`
in Job::spawn (src/recorder.rs:116). -/
def invocationJson (command : String) (args : List String) : Json :=
  .obj [("command", .str command), ("args", .arr (args.map .str))]

/-- The environment of one Job::spawn call: the generated ULID string, the
child pid reported by `child.id()`, and whether each fallible step fails.
`commandSpawnFails` covers `Command::spawn` itself (e.g. command not
found). -/
structure SpawnEnv where
  newId : String
  childPid : Nat
  createInfoDirFails : Bool
  createInvocationFileFails : Bool
  writeInvocationFails : Bool
  createStdoutFails : Bool
  createStderrFails : Bool
  commandSpawnFails : Bool
  createPidFileFails : Bool
  writePidFails : Bool

/-- Job::spawn (src/recorder.rs:111-134), step by step, threading the job
directory's state and stopping (with the partial state) at the first
failing step: create `info/` (`create_dir_all` also creates the job root,
so the path becomes a directory), create then write `invocation.json`,
create `stdout.txt` and `stderr.txt` (their contents are inside `info/`,
which `file_names` never reports, so they are not tracked), spawn the
child, create then write `pid.txt` (`writeln!` appends a newline). -/
def Job.spawn (env : SpawnEnv) (d0 : JobDirState) (command : String)
    (args : List String) : Except Unit Unit × JobDirState :=
  if env.createInfoDirFails then (.error (), d0) else
  let d1 := { d0 with isDir := true }
  if env.createInvocationFileFails then (.error (), d1) else
  let d2 := { d1 with invocationFile := some none }
  if env.writeInvocationFails then (.error (), d2) else
  let d3 := { d2 with invocationFile := some (some (invocationJson command args)) }
  if env.createStdoutFails then (.error (), d3) else
  if env.createStderrFails then (.error (), d3) else
  if env.commandSpawnFails then (.error (), d3) else
  if env.createPidFileFails then (.error (), d3) else
  let d4 := { d3 with pidTxt := .content "" }
  if env.writePidFails then (.error (), d4) else
  (.ok (), { d3 with pidTxt := .content (toString env.childPid ++ "\n") })

/-- Recorder::spawn_job (src/recorder.rs:19-24): generate a fresh `JobId`,
resolve its directory, run Job::spawn there, and return the job handle on
success (the partially written directory persists either way). -/
def Recorder.spawn_job (env : SpawnEnv) (fs : FS) (command : String)
    (args : List String) : Except Unit String × FS :=
  let id := env.newId
  let rd := Job.spawn env (fs.dirs id) command args
  let fs2 : FS :=
    { fs with dirs := fun n => if n = id then rd.2 else fs.dirs n }
  match rd.1 with
  | .ok _ => (.ok id, fs2)
  | .error e => (.error e, fs2)

/-- Modelled from the spec: `Job::safe_delete` is called from the web layer
(src/src/web/services.rs, `delete_jobs`) but its definition is not among
the sources under src/.  Spec §4.4 specifies `delete()` as recursively
removing the job's entire directory tree unconditionally — not gated on
liveness or on output presence — with I/O failure propagated to the caller
(§7). -/
def Job.delete (fs : FS) (id : String) : Except Unit FS :=
  if (fs.dirs id).removeFails then .error ()
  else .ok { fs with dirs := fun n => if n = id then removedDirState else fs.dirs n }

/-- A Rust `Path` for the purposes of JobDir::create_dir: on Unix,
`is_relative()` is the negation of `is_absolute()` (whether the path starts
with `/`), and joining a relative path appends its components. -/
structure RPath where
  isAbsolute : Bool
  components : List String
deriving DecidableEq

/-- The observable outcome of a call that can return `Ok`, return an
`io::Error`, or panic (an `assert!` failure terminates abnormally instead
of returning). -/
inductive CallResult (α : Type) where
  | ok : α → CallResult α
  | ioError : CallResult α
  | panicked : CallResult α
deriving DecidableEq

/-- The set of directories that exist, each as its component list. -/
structure DirTree where
  existingDirs : List (List String)
deriving DecidableEq

/-- Models `fs::create_dir_all(p)`: on success every ancestor of `p`
(including `p` itself) exists afterwards; `fails` is whether the OS call
errors. -/
def create_dir_all (fails : Bool) (t : DirTree) (p : List String) :
    CallResult DirTree :=
  if fails then .ioError
  else .ok ⟨t.existingDirs ++ (List.range (p.length + 1)).map (fun k => p.take k)⟩

/-- JobDir::create_dir (src/recorder.rs:192-195):
`assert!(path.as_ref().is_relative())` — a panic, not an `io::Error` — then
`fs::create_dir_all(self.path.join(path))` where `root` is the job
directory's component path. -/
def JobDir.create_dir (fails : Bool) (root : List String) (t : DirTree)
    (p : RPath) : CallResult DirTree :=
  if !p.isAbsolute then create_dir_all fails t (root ++ p.components)
  else .panicked

/-- The Crockford base32 digit alphabet used by the ULID string encoding:
`0123456789ABCDEFGHJKMNPQRSTVWXYZ`. -/
def crockfordChar (d : Nat) : Char :=
  "0123456789ABCDEFGHJKMNPQRSTVWXYZ".data.getD d '0'

/-- Big-endian fixed-width base-`b` digits of `n` (most significant
first). -/
def natToDigitsBE (b : Nat) : Nat → Nat → List Nat
  | 0, _ => []
  | w + 1, n => natToDigitsBE b w (n / b) ++ [n % b]

/-- Modelled from the spec: JobId::new (src/recorder.rs:56-60) returns
`ulid::Ulid::new().to_string()`; the `ulid` crate is an external
dependency, so its encoding is modelled from spec §3 and the ULID format it
names: a 48-bit millisecond timestamp `t` in the high bits, 80 random bits
`r` in the low bits, rendered as a fixed-width 26-character Crockford
base32 string (26·5 = 130 bits, the top two bits zero). -/
def JobId.new (t r : Nat) : String :=
  ⟨(natToDigitsBE 32 26 (t * 2 ^ 80 + r)).map crockfordChar⟩

/-- The fields of `libc::statvfs` that DiskStat::new reads, as unsigned
integers. -/
structure StatvfsResult where
  f_bavail : Nat
  f_blocks : Nat
  f_frsize : Nat
deriving DecidableEq

/-- Rust `u64::checked_mul`: `None` when the product does not fit in 64
bits. -/
def checkedMulU64 (a b : Nat) : Option Nat :=
  if a * b < 2 ^ 64 then some (a * b) else none

/-- Rust `u64::checked_sub`: `None` when the subtraction would
underflow. -/
def checkedSubU64 (a b : Nat) : Option Nat :=
  if b ≤ a then some (a - b) else none

structure DiskStat where
  available : Nat
  total : Nat
  used : Nat
deriving DecidableEq

/-- DiskStat::new (src/disk_stat.rs:10-27).  The input is the outcome of
the `statvfs` call: `none` when it returns nonzero (the earlier `to_str()?`
and `CString::new(..).ok()?` failures short-circuit to `None` the same way
and are folded into this case, as they happen before any arithmetic).
Then `available = f_bavail.checked_mul(f_frsize)?`,
`total = f_blocks.checked_mul(f_frsize)?`,
`used = total.checked_sub(available)?`. -/
def DiskStat.new (statvfsResult : Option StatvfsResult) : Option DiskStat :=
  match statvfsResult with
  | none => none
  | some st => do
    let available ← checkedMulU64 st.f_bavail st.f_frsize
    let total ← checkedMulU64 st.f_blocks st.f_frsize
    let used ← checkedSubU64 total available
    pure { available := available, total := total, used := used }

/-! ## Helper lemmas -/

theorem pruneCond_iff (kill0 : Int → Bool) (d : JobDirState) :
    pruneCond kill0 d = true ↔
      Job.is_running kill0 d = false ∧ JobDir.file_names d = [] := by
  simp [pruneCond]

/-! ## Theorems for the claims -/

/-- C5: `is_running` is total (it returns a `Bool`, never an error) and
fails closed: it returns `true` exactly when `pid()` parsed a pid on which
the `kill(pid, 0) == 0` probe succeeds; whenever `info/pid.txt` is missing,
unreadable, or unparsable, or the probe fails on the parsed pid, it returns
`false`. -/
theorem is_running_fail_closed (kill0 : Int → Bool) (d : JobDirState) :
    (Job.is_running kill0 d = true ↔
      ∃ n : Int, Job.pid d = .ok n ∧ kill0 n = true) ∧
    (d.pidTxt = .absent → Job.is_running kill0 d = false) ∧
    (d.pidTxt = .unreadable → Job.is_running kill0 d = false) ∧
    (∀ s, d.pidTxt = .content s → parseI32 (rustTrimEnd s) = none →
      Job.is_running kill0 d = false) ∧
    (∀ n : Int, Job.pid d = .ok n → kill0 n = false →
      Job.is_running kill0 d = false) := by
  refine ⟨?_, ?_, ?_, ?_, ?_⟩
  · cases hp : Job.pid d with
    | ok n => simp [Job.is_running, hp]
    | error e => simp [Job.is_running, hp]
  · intro h; simp [Job.is_running, Job.pid, h]
  · intro h; simp [Job.is_running, Job.pid, h]
  · intro s hs hparse; simp [Job.is_running, Job.pid, hs, hparse]
  · intro n hn hk; simp [Job.is_running, hn, hk]

/-- A job directory whose `info/pid.txt` cannot be opened. -/
def dPidAbsent : JobDirState :=
  { isDir := true, readDir := some [], pidTxt := .absent,
    invocationFile := none, removeFails := false }

theorem is_running_fail_closed_witness :
    Job.is_running (fun _ => true) dPidAbsent = false :=
  (is_running_fail_closed (fun _ => true) dPidAbsent).2.1 rfl

/-- C7: `Recorder::job` never returns an error (its result type is an
`Option`, and the function is total): it returns a `Job` exactly when a
directory named by the identifier exists under the work directory root, and
`none` otherwise. -/
theorem job_some_iff_dir (fs : FS) (id : String) :
    (∃ j, Recorder.job fs id = some j) ↔ (fs.dirs id).isDir = true := by
  unfold Recorder.job
  by_cases h : (fs.dirs id).isDir <;> simp [h]

/-- C8: the work directory listing is total (it returns a list, never an
error): when the root cannot be read at all it is empty, and otherwise a
name is listed exactly when some readable entry (erring entries are
skipped) is a directory carrying that name verbatim — any string at all, no
format validation. -/
theorem job_dirs_total (fs : FS) :
    (fs.rootRead = none → Recorder.jobs fs = []) ∧
    (∀ entries, fs.rootRead = some entries →
      ∀ name : String, name ∈ Recorder.jobs fs ↔
        ∃ isFile : Bool,
          some { fileName := some name, isFile := isFile, isDir := true } ∈ entries) := by
  constructor
  · intro h; simp [Recorder.jobs, WorkDir.job_dirs, h]
  · intro entries h name
    simp only [Recorder.jobs, WorkDir.job_dirs, h]
    rw [List.mem_filterMap]
    constructor
    · rintro ⟨e, he, hfe⟩
      cases e with
      | none => simp at hfe
      | some ent =>
        obtain ⟨fn, isf, isd⟩ := ent
        cases isd with
        | false => simp at hfe
        | true =>
          simp only [if_pos] at hfe
          rw [hfe] at he
          exact ⟨isf, he⟩
    · rintro ⟨b, hb⟩
      exact ⟨some { fileName := some name, isFile := b, isDir := true }, hb, rfl⟩

/-- A concrete work directory listing: one directory entry, one erring
entry, one regular-file entry. -/
def fsC8 : FS :=
  { rootRead := some
      [some { fileName := some "01X", isFile := false, isDir := true },
       none,
       some { fileName := some "file.txt", isFile := true, isDir := false }],
    dirs := fun _ => removedDirState,
    kill0 := fun _ => false }

theorem job_dirs_total_witness :
    "01X" ∈ Recorder.jobs fsC8 ↔
      ∃ isFile : Bool,
        some { fileName := some "01X", isFile := isFile, isDir := true } ∈
          ([some { fileName := some "01X", isFile := false, isDir := true },
            none,
            some { fileName := some "file.txt", isFile := true, isDir := false }] :
            List (Option DirEntry)) :=
  (job_dirs_total fsC8).2 _ rfl "01X"

theorem pruneGo_ok_mem (kill0 : Int → Bool) (F : String → JobDirState) :
    ∀ (l : List String) (g : String → JobDirState), l.Nodup →
      (∀ id ∈ l, g id = F id) →
      ∀ (removed : List String) (g2 : String → JobDirState),
        Recorder.pruneGo kill0 l g = .ok (removed, g2) →
        ∀ id : String,
          (id ∈ removed ↔ id ∈ l ∧ pruneCond kill0 (F id) = true) := by
  intro l
  induction l with
  | nil =>
    intro g _ _ removed g2 h id
    simp only [Recorder.pruneGo, Except.ok.injEq, Prod.mk.injEq] at h
    simp [← h.1]
  | cons a rest ih =>
    intro g hnd hg removed g2 h id
    have hga : g a = F a := hg a (List.mem_cons_self a rest)
    have hand : a ∉ rest := (List.nodup_cons.mp hnd).1
    have hndr : rest.Nodup := (List.nodup_cons.mp hnd).2
    simp only [Recorder.pruneGo] at h
    by_cases hc : pruneCond kill0 (g a) = true
    · rw [if_pos hc] at h
      by_cases hf : (g a).removeFails = true
      · rw [if_pos hf] at h
        cases h
      · rw [if_neg hf] at h
        cases hrec : Recorder.pruneGo kill0 rest
            (fun n => if n = a then removedDirState else g n) with
        | error e => rw [hrec] at h; cases h
        | ok p =>
          rw [hrec] at h
          obtain ⟨removed2, g3⟩ := p
          simp only [Except.ok.injEq, Prod.mk.injEq] at h
          have hg2 : ∀ id ∈ rest,
              (if id = a then removedDirState else g id) = F id := by
            intro n hn
            have hne : n ≠ a := fun he => hand (he ▸ hn)
            rw [if_neg hne]
            exact hg n (List.mem_cons_of_mem a hn)
          have hiff := ih _ hndr hg2 removed2 g3 hrec id
          rw [← h.1]
          constructor
          · intro hm
            rcases List.mem_cons.mp hm with rfl | hm2
            · exact ⟨List.mem_cons_self _ _, hga ▸ hc⟩
            · rcases hiff.mp hm2 with ⟨hmem, hcond⟩
              exact ⟨List.mem_cons_of_mem a hmem, hcond⟩
          · rintro ⟨hmem, hcond⟩
            rcases List.mem_cons.mp hmem with rfl | hm2
            · exact List.mem_cons_self _ _
            · exact List.mem_cons_of_mem a (hiff.mpr ⟨hm2, hcond⟩)
    · rw [if_neg hc] at h
      have hiff := ih _ hndr (fun n hn => hg n (List.mem_cons_of_mem a hn))
        removed g2 h id
      rw [hiff]
      constructor
      · rintro ⟨hmem, hcond⟩
        exact ⟨List.mem_cons_of_mem a hmem, hcond⟩
      · rintro ⟨hmem, hcond⟩
        rcases List.mem_cons.mp hmem with rfl | hm2
        · exact absurd (hga ▸ hcond) hc
        · exact ⟨hm2, hcond⟩

theorem pruneGo_error_iff (kill0 : Int → Bool) (F : String → JobDirState) :
    ∀ (l : List String) (g : String → JobDirState), l.Nodup →
      (∀ id ∈ l, g id = F id) →
      (Recorder.pruneGo kill0 l g = .error () ↔
        ∃ id ∈ l, pruneCond kill0 (F id) = true ∧ (F id).removeFails = true) := by
  intro l
  induction l with
  | nil =>
    intro g _ _
    simp [Recorder.pruneGo]
  | cons a rest ih =>
    intro g hnd hg
    have hga : g a = F a := hg a (List.mem_cons_self a rest)
    have hand : a ∉ rest := (List.nodup_cons.mp hnd).1
    have hndr : rest.Nodup := (List.nodup_cons.mp hnd).2
    simp only [Recorder.pruneGo]
    by_cases hc : pruneCond kill0 (g a) = true
    · rw [if_pos hc]
      by_cases hf : (g a).removeFails = true
      · rw [if_pos hf]
        simp only [true_iff]
        exact ⟨a, List.mem_cons_self _ _, hga ▸ hc, hga ▸ hf⟩
      · rw [if_neg hf]
        have hg2 : ∀ id ∈ rest,
            (if id = a then removedDirState else g id) = F id := by
          intro n hn
          have hne : n ≠ a := fun he => hand (he ▸ hn)
          rw [if_neg hne]
          exact hg n (List.mem_cons_of_mem a hn)
        have hrec := ih (fun n => if n = a then removedDirState else g n)
          hndr hg2
        constructor
        · intro h
          cases hres : Recorder.pruneGo kill0 rest
              (fun n => if n = a then removedDirState else g n) with
          | ok p => rw [hres] at h; cases h
          | error e =>
            rcases hrec.mp (by rw [hres]) with ⟨n, hn, hcond, hfl⟩
            exact ⟨n, List.mem_cons_of_mem a hn, hcond, hfl⟩
        · rintro ⟨n, hn, hcond, hfl⟩
          rcases List.mem_cons.mp hn with rfl | hn2
          · exact absurd (hga ▸ hfl) hf
          · rw [hrec.mpr ⟨n, hn2, hcond, hfl⟩]
    · rw [if_neg hc]
      rw [ih g hndr (fun n hn => hg n (List.mem_cons_of_mem a hn))]
      constructor
      · rintro ⟨n, hn, hcond, hfl⟩
        exact ⟨n, List.mem_cons_of_mem a hn, hcond, hfl⟩
      · rintro ⟨n, hn, hcond, hfl⟩
        rcases List.mem_cons.mp hn with rfl | hn2
        · exact absurd (hga ▸ hcond) hc
        · exact ⟨n, hn2, hcond, hfl⟩

/-- C1: in a sweep that completes, a job directory is removed if and only
if the job was enumerated and, at its state at the time of the sweep, its
`is_running()` is `false` and its output-file list (fail-safe empty) is
empty: a running job is never removed even with no outputs, and a job with
an output file is never removed even when finished.  The `Nodup` hypothesis
says the directory listing names each directory once, which holds of every
reachable filesystem state (a `read_dir` snapshot never repeats a name). -/
theorem prune_removes_iff (fs : FS) (removed : List String)
    (dirs2 : String → JobDirState)
    (hnd : (Recorder.jobs fs).Nodup)
    (h : Recorder.prune_job_dirs fs = .ok (removed, dirs2)) (id : String) :
    id ∈ removed ↔
      id ∈ Recorder.jobs fs ∧
      Job.is_running fs.kill0 (fs.dirs id) = false ∧
      JobDir.file_names (fs.dirs id) = [] := by
  rw [pruneGo_ok_mem fs.kill0 fs.dirs (Recorder.jobs fs) fs.dirs hnd
    (fun _ _ => rfl) removed dirs2 h id, pruneCond_iff]

/-- A finished job with no output files (only the `info` subdirectory). -/
def dFinishedEmpty : JobDirState :=
  { isDir := true,
    readDir := some [some { fileName := some "info", isFile := false, isDir := true }],
    pidTxt := .content "41\n", invocationFile := none, removeFails := false }

/-- A job whose recorded pid 7 is still alive under `fsP.kill0`. -/
def dRunningEmpty : JobDirState :=
  { isDir := true, readDir := some [], pidTxt := .content "7\n",
    invocationFile := none, removeFails := false }

/-- A finished job that produced an output file. -/
def dFinishedOutput : JobDirState :=
  { isDir := true,
    readDir := some [some { fileName := some "result.mp4", isFile := true, isDir := false }],
    pidTxt := .content "41\n", invocationFile := none, removeFails := false }

def fsPdirs : String → JobDirState := fun id =>
  if id = "A" then dFinishedEmpty
  else if id = "B" then dRunningEmpty
  else dFinishedOutput

/-- A work directory with a prunable job `A`, a running job `B`, and a
finished job `C` with an output; only pid 7 is alive. -/
def fsP : FS :=
  { rootRead := some
      [some { fileName := some "A", isFile := false, isDir := true },
       some { fileName := some "B", isFile := false, isDir := true },
       some { fileName := some "C", isFile := false, isDir := true }],
    dirs := fsPdirs,
    kill0 := fun n => n == 7 }

theorem prune_removes_iff_witness :
    "A" ∈ ["A"] ↔
      "A" ∈ Recorder.jobs fsP ∧
      Job.is_running fsP.kill0 (fsP.dirs "A") = false ∧
      JobDir.file_names (fsP.dirs "A") = [] :=
  prune_removes_iff fsP ["A"]
    (fun n => if n = "A" then removedDirState else fsPdirs n)
    (by decide) (by rfl) "A"

/-- C2: the sweep returns the error of the first failing deletion (leaving
the partial sweep behind), and returns success exactly when no deletion of
an eligible (not running, outputless) job fails. -/
theorem prune_error_iff (fs : FS) (hnd : (Recorder.jobs fs).Nodup) :
    Recorder.prune_job_dirs fs = .error () ↔
      ∃ id ∈ Recorder.jobs fs,
        Job.is_running fs.kill0 (fs.dirs id) = false ∧
        JobDir.file_names (fs.dirs id) = [] ∧
        (fs.dirs id).removeFails = true := by
  unfold Recorder.prune_job_dirs
  rw [pruneGo_error_iff fs.kill0 fs.dirs (Recorder.jobs fs) fs.dirs hnd
    (fun _ _ => rfl)]
  constructor
  · rintro ⟨id, hm, hc, hf⟩
    rcases (pruneCond_iff _ _).mp hc with ⟨h1, h2⟩
    exact ⟨id, hm, h1, h2, hf⟩
  · rintro ⟨id, hm, h1, h2, hf⟩
    exact ⟨id, hm, (pruneCond_iff _ _).mpr ⟨h1, h2⟩, hf⟩

/-- A prunable job directory whose deletion fails. -/
def dFinishedEmptyStuck : JobDirState :=
  { isDir := true, readDir := some [], pidTxt := .absent,
    invocationFile := none, removeFails := true }

def fsE : FS :=
  { rootRead := some [some { fileName := some "A", isFile := false, isDir := true }],
    dirs := fun _ => dFinishedEmptyStuck,
    kill0 := fun _ => false }

theorem prune_error_iff_witness :
    Recorder.prune_job_dirs fsE = .error () ↔
      ∃ id ∈ Recorder.jobs fsE,
        Job.is_running fsE.kill0 (fsE.dirs id) = false ∧
        JobDir.file_names (fsE.dirs id) = [] ∧
        (fsE.dirs id).removeFails = true :=
  prune_error_iff fsE (by decide)

theorem spawn_ok_state (env : SpawnEnv) (d0 : JobDirState) (command : String)
    (args : List String) (h : (Job.spawn env d0 command args).1 = .ok ()) :
    (Job.spawn env d0 command args).2.isDir = true ∧
    (Job.spawn env d0 command args).2.invocationFile =
      some (some (invocationJson command args)) ∧
    (Job.spawn env d0 command args).2.pidTxt =
      .content (toString env.childPid ++ "\n") := by
  unfold Job.spawn at h ⊢
  split_ifs at h ⊢
  simp_all

/-- C6: a successful `spawn_job` followed by `job(id)` on the returned
identifier yields a job whose `invocation()` is exactly the JSON object
`{"command": command, "args": args}`, with the command and every argument
preserved verbatim (the argument vector is stored as-is; no shell
interpretation happens anywhere on the path). -/
theorem spawn_invocation_roundtrip (env : SpawnEnv) (fs : FS)
    (command : String) (args : List String) (id : String) (fs2 : FS)
    (h : Recorder.spawn_job env fs command args = (.ok id, fs2)) :
    Recorder.job fs2 id = some id ∧
    Job.invocation (fs2.dirs id) =
      some (.obj [("command", .str command), ("args", .arr (args.map .str))]) := by
  unfold Recorder.spawn_job at h
  dsimp only at h
  cases hr : (Job.spawn env (fs.dirs env.newId) command args).1 with
  | error e =>
    rw [show Job.spawn env (fs.dirs env.newId) command args =
        ((Job.spawn env (fs.dirs env.newId) command args).1,
         (Job.spawn env (fs.dirs env.newId) command args).2) from rfl, hr] at h
    simp at h
  | ok u =>
    rw [show Job.spawn env (fs.dirs env.newId) command args =
        ((Job.spawn env (fs.dirs env.newId) command args).1,
         (Job.spawn env (fs.dirs env.newId) command args).2) from rfl, hr] at h
    simp only [Prod.mk.injEq, Except.ok.injEq] at h
    obtain ⟨rfl, rfl⟩ := h
    obtain ⟨h1, h2, _⟩ := spawn_ok_state env (fs.dirs env.newId) command args
      (by rw [hr])
    constructor
    · simp [Recorder.job, h1]
    · simp [Job.invocation, h2, invocationJson]

/-- The environment of a successful spawn: a fresh ULID, child pid 421,
and no failing step. -/
def envC6 : SpawnEnv :=
  { newId := "01BX5ZZKBKACTAV9WEVGEMMVRZ", childPid := 421,
    createInfoDirFails := false, createInvocationFileFails := false,
    writeInvocationFails := false, createStdoutFails := false,
    createStderrFails := false, commandSpawnFails := false,
    createPidFileFails := false, writePidFails := false }

/-- An initially empty work directory. -/
def fsEmpty : FS :=
  { rootRead := some [], dirs := fun _ => removedDirState, kill0 := fun _ => false }

/-- The state after the witness spawn; its arguments contain spaces and
shell metacharacters. -/
def fsC6after : FS :=
  (Recorder.spawn_job envC6 fsEmpty "youtube-dl"
    ["--write-info-json", "a b;rm -rf /", "$(evil)"]).2

theorem spawn_invocation_roundtrip_witness :
    Recorder.job fsC6after "01BX5ZZKBKACTAV9WEVGEMMVRZ" =
        some "01BX5ZZKBKACTAV9WEVGEMMVRZ" ∧
    Job.invocation (fsC6after.dirs "01BX5ZZKBKACTAV9WEVGEMMVRZ") =
      some (.obj [("command", .str "youtube-dl"),
        ("args", .arr [.str "--write-info-json", .str "a b;rm -rf /",
          .str "$(evil)"])]) :=
  spawn_invocation_roundtrip envC6 fsEmpty "youtube-dl"
    ["--write-info-json", "a b;rm -rf /", "$(evil)"]
    "01BX5ZZKBKACTAV9WEVGEMMVRZ" fsC6after (by rfl)

/-- C3 (modelled from the spec, see `Job.delete`): deletion succeeds
whenever the OS removal succeeds, removing the job's directory and leaving
every other directory untouched, with no hypothesis whatsoever about
`is_running()` or about the presence of output files — the removal is
unconditional. -/
theorem delete_unconditional (fs : FS) (id : String)
    (hfail : (fs.dirs id).removeFails = false) :
    ∃ fs2, Job.delete fs id = .ok fs2 ∧ (fs2.dirs id).isDir = false ∧
      (fs2.dirs id).readDir = none ∧
      ∀ n, n ≠ id → fs2.dirs n = fs.dirs n := by
  refine ⟨{ fs with dirs := fun n => if n = id then removedDirState else fs.dirs n },
    ?_, ?_, ?_, ?_⟩
  · simp [Job.delete, hfail]
  · simp [removedDirState]
  · simp [removedDirState]
  · intro n hn; simp [hn]

/-- A work directory whose only job `R` is running (pid 7 alive) and has an
output file, yet is deletable. -/
def fsD : FS :=
  { rootRead := some [some { fileName := some "R", isFile := false, isDir := true }],
    dirs := fun _ =>
      { isDir := true,
        readDir := some [some { fileName := some "out.mp4", isFile := true, isDir := false }],
        pidTxt := .content "7\n", invocationFile := none, removeFails := false },
    kill0 := fun n => n == 7 }

theorem delete_unconditional_witness :
    Job.is_running fsD.kill0 (fsD.dirs "R") = true ∧
    JobDir.file_names (fsD.dirs "R") = ["out.mp4"] ∧
    ∃ fs2, Job.delete fsD "R" = .ok fs2 ∧ (fs2.dirs "R").isDir = false ∧
      (fs2.dirs "R").readDir = none ∧
      ∀ n, n ≠ "R" → fs2.dirs n = fsD.dirs n :=
  ⟨by rfl, by rfl, delete_unconditional fsD "R" rfl⟩

/-- C4 counterexample: on an absolute path, `JobDir::create_dir` hits
`assert!(path.as_ref().is_relative())` and terminates abnormally (a panic);
it does not return a propagated `io::Error` — refuting the claim that it
"fails by propagating an I/O error to its caller rather than ...
terminating abnormally". -/
theorem create_dir_absolute_panics :
    JobDir.create_dir false ["work", "J1"] { existingDirs := [] }
        { isAbsolute := true, components := ["x"] } = .panicked ∧
    JobDir.create_dir false ["work", "J1"] { existingDirs := [] }
        { isAbsolute := true, components := ["x"] } ≠ .ioError := by
  constructor
  · rfl
  · decide

/-- C4 amended: for every absolute path argument `create_dir` terminates
abnormally (assertion panic) rather than returning; for every strictly
relative path (when the OS call succeeds) it creates all missing
intermediate directories under the job root. -/
theorem create_dir_spec (fails : Bool) (root : List String) (t : DirTree)
    (p : RPath) :
    (p.isAbsolute = true → JobDir.create_dir fails root t p = .panicked) ∧
    (p.isAbsolute = false → fails = false →
      ∃ t2, JobDir.create_dir fails root t p = .ok t2 ∧
        ∀ k, k ≤ (root ++ p.components).length →
          (root ++ p.components).take k ∈ t2.existingDirs) := by
  constructor
  · intro h
    simp [JobDir.create_dir, h]
  · intro h hf
    subst hf
    refine ⟨DirTree.mk (t.existingDirs ++
        (List.range ((root ++ p.components).length + 1)).map
          (fun k => (root ++ p.components).take k)), ?_, ?_⟩
    · unfold JobDir.create_dir create_dir_all
      rw [h]
      rfl
    · intro k hk
      refine List.mem_append_right _ ?_
      exact List.mem_map.mpr ⟨k, List.mem_range.mpr (Nat.lt_succ_of_le hk), rfl⟩

theorem create_dir_spec_witness :
    JobDir.create_dir false ["work", "J1"]
        { existingDirs := [] } { isAbsolute := true, components := ["x"] } = .panicked ∧
    ∃ t2, JobDir.create_dir false ["work", "J1"]
        { existingDirs := [] } { isAbsolute := false, components := ["a", "b"] } = .ok t2 ∧
      ∀ k, k ≤ (["work", "J1"] ++ ["a", "b"]).length →
        (["work", "J1"] ++ ["a", "b"]).take k ∈ t2.existingDirs :=
  ⟨(create_dir_spec false ["work", "J1"] { existingDirs := [] }
      { isAbsolute := true, components := ["x"] }).1 rfl,
   (create_dir_spec false ["work", "J1"] { existingDirs := [] }
      { isAbsolute := false, components := ["a", "b"] }).2 rfl rfl⟩

theorem natToDigitsBE_length (b : Nat) :
    ∀ (w n : Nat), (natToDigitsBE b w n).length = w := by
  intro w
  induction w with
  | zero => intro n; rfl
  | succ w ih =>
    intro n
    simp [natToDigitsBE, ih]

theorem natToDigitsBE_bound (b : Nat) (hb : 0 < b) :
    ∀ (w n : Nat), ∀ d ∈ natToDigitsBE b w n, d < b := by
  intro w
  induction w with
  | zero => intro n d hd; simp [natToDigitsBE] at hd
  | succ w ih =>
    intro n d hd
    simp only [natToDigitsBE, List.mem_append, List.mem_singleton] at hd
    rcases hd with hd | rfl
    · exact ih _ d hd
    · exact Nat.mod_lt _ hb

theorem list_lt_append {α : Type} [LT α] {l1 l2 : List α}
    (h : List.lt l1 l2) (hlen : l1.length = l2.length) (t1 t2 : List α) :
    List.lt (l1 ++ t1) (l2 ++ t2) := by
  induction h with
  | nil b bs => simp at hlen
  | head as bs hab => exact .head _ _ hab
  | tail hnab hnba hlt ih =>
    simp only [List.length_cons, Nat.succ.injEq] at hlen
    exact .tail hnab hnba (ih hlen)

theorem digits_lt_append_last :
    ∀ (l : List Nat) (x y : Nat), x < y → List.lt (l ++ [x]) (l ++ [y])
  | [], _, _, h => .head _ _ h
  | a :: l, x, y, h =>
    .tail (Nat.lt_irrefl a) (Nat.lt_irrefl a) (digits_lt_append_last l x y h)

theorem natToDigitsBE_lt (w : Nat) :
    ∀ n1 n2 : Nat, n1 < n2 → n2 < 32 ^ w →
      List.lt (natToDigitsBE 32 w n1) (natToDigitsBE 32 w n2) := by
  induction w with
  | zero =>
    intro n1 n2 h12 h2
    rw [pow_zero] at h2
    omega
  | succ w ih =>
    intro n1 n2 h12 h2
    simp only [natToDigitsBE]
    rcases Nat.lt_or_ge (n1 / 32) (n2 / 32) with hq | hq
    · have hq2 : n2 / 32 < 32 ^ w := by
        rw [Nat.div_lt_iff_lt_mul (by norm_num : 0 < 32), ← pow_succ]
        exact h2
      exact list_lt_append (ih _ _ hq hq2)
        (by rw [natToDigitsBE_length, natToDigitsBE_length]) _ _
    · have hq3 : n1 / 32 = n2 / 32 :=
        Nat.le_antisymm (Nat.div_le_div_right (Nat.le_of_lt h12)) hq
      have hm : n1 % 32 < n2 % 32 := by omega
      rw [hq3]
      exact digits_lt_append_last _ _ _ hm

theorem crockford_mono :
    ∀ d2 < 32, ∀ d1 < d2, crockfordChar d1 < crockfordChar d2 := by decide

theorem list_lex_map_crockford {ds1 ds2 : List Nat} (h : List.lt ds1 ds2) :
    (∀ d ∈ ds2, d < 32) →
    List.Lex (· < ·) (ds1.map crockfordChar) (ds2.map crockfordChar) := by
  induction h with
  | nil b bs =>
    intro _
    exact List.Lex.nil
  | head as bs hab =>
    intro h2
    exact List.Lex.rel (crockford_mono _ (h2 _ (List.mem_cons_self _ _)) _ hab)
  | tail hnab hnba hlt ih =>
    intro h2
    have heq : _ = _ := Nat.le_antisymm (Nat.not_lt.mp hnab) (Nat.not_lt.mp hnba)
    rw [List.map_cons, List.map_cons, heq]
    exact List.Lex.cons (ih fun d hd => h2 d (List.mem_cons_of_mem _ hd))

theorem string_mk_lt_of_lex {l1 l2 : List Char}
    (h : List.Lex (fun a b => a < b) l1 l2) :
    String.mk l1 < String.mk l2 := by
  rw [String.lt_iff_toList_lt]
  exact h

/-- C9 (the identifier encoding is modelled from the spec; see
`JobId.new`): two identifiers generated at strictly increasing millisecond
timestamps compare lexicographically in the same order as their timestamps,
whatever the random components are. -/
theorem jobid_new_monotone (t1 r1 t2 r2 : Nat)
    (ht2 : t2 < 2 ^ 48) (hr1 : r1 < 2 ^ 80) (hr2 : r2 < 2 ^ 80)
    (h : t1 < t2) :
    JobId.new t1 r1 < JobId.new t2 r2 := by
  have hv : t1 * 2 ^ 80 + r1 < t2 * 2 ^ 80 + r2 := by
    have h1 : t1 * 2 ^ 80 + r1 < (t1 + 1) * 2 ^ 80 := by
      rw [Nat.add_mul, Nat.one_mul]
      exact Nat.add_lt_add_left hr1 _
    have h2 : (t1 + 1) * 2 ^ 80 ≤ t2 * 2 ^ 80 := Nat.mul_le_mul_right _ h
    exact Nat.lt_of_lt_of_le h1 (Nat.le_trans h2 (Nat.le_add_right _ _))
  have hb : t2 * 2 ^ 80 + r2 < 32 ^ 26 := by
    have h1 : t2 * 2 ^ 80 + r2 < (t2 + 1) * 2 ^ 80 := by
      rw [Nat.add_mul, Nat.one_mul]
      exact Nat.add_lt_add_left hr2 _
    have h2 : (t2 + 1) * 2 ^ 80 ≤ 2 ^ 48 * 2 ^ 80 := Nat.mul_le_mul_right _ ht2
    have h3 : (2 : Nat) ^ 48 * 2 ^ 80 ≤ 32 ^ 26 := by norm_num
    exact Nat.lt_of_lt_of_le h1 (Nat.le_trans h2 h3)
  unfold JobId.new
  exact string_mk_lt_of_lex
    (list_lex_map_crockford (natToDigitsBE_lt 26 _ _ hv hb)
      (natToDigitsBE_bound 32 (by norm_num) 26 _))

theorem jobid_new_monotone_witness :
    JobId.new 0 37 < JobId.new 1 0 :=
  jobid_new_monotone 0 37 1 0 (by norm_num) (by norm_num) (by norm_num)
    (by norm_num)

/-- C10: whenever `DiskStat::new` returns a value, `used` is exactly
`total - available` with `used + available = total` (no wraparound, and all
three fields fit in 64 bits); on `statvfs` failure, on overflow in either
`checked_mul`, or on underflow in the `checked_sub`, it returns `None`
rather than a partially-computed or wrapped result. -/
theorem diskstat_new_spec (res : Option StatvfsResult) :
    (∀ d, DiskStat.new res = some d →
      d.used + d.available = d.total ∧ d.used = d.total - d.available ∧
      d.available < 2 ^ 64 ∧ d.total < 2 ^ 64 ∧ d.used < 2 ^ 64) ∧
    (res = none → DiskStat.new res = none) ∧
    (∀ st, res = some st →
      (2 ^ 64 ≤ st.f_bavail * st.f_frsize ∨ 2 ^ 64 ≤ st.f_blocks * st.f_frsize ∨
        st.f_blocks * st.f_frsize < st.f_bavail * st.f_frsize) →
      DiskStat.new res = none) := by
  refine ⟨?_, ?_, ?_⟩
  · intro d hd
    cases res with
    | none => simp [DiskStat.new] at hd
    | some st =>
      simp only [DiskStat.new, checkedMulU64, checkedSubU64] at hd
      split_ifs at hd with h1 h2 <;> simp at hd
      split_ifs at hd with h3 <;> simp at hd
      obtain rfl := hd.symm
      refine ⟨?_, ?_, ?_, ?_, ?_⟩ <;> simp <;> omega
  · rintro rfl
    rfl
  · rintro st rfl hover
    simp only [DiskStat.new, checkedMulU64, checkedSubU64]
    split_ifs with h1 h2 <;> simp
    rcases hover with h | h | h <;> omega

theorem diskstat_new_spec_witness :
    ((368640 : Nat) + 40960 = 409600 ∧ (368640 : Nat) = 409600 - 40960 ∧
      (40960 : Nat) < 2 ^ 64 ∧ (409600 : Nat) < 2 ^ 64 ∧ (368640 : Nat) < 2 ^ 64) ∧
    DiskStat.new (some { f_bavail := 2 ^ 63, f_blocks := 2 ^ 63, f_frsize := 4 }) =
      none :=
  ⟨(diskstat_new_spec (some { f_bavail := 10, f_blocks := 100, f_frsize := 4096 })).1
      { available := 40960, total := 409600, used := 368640 } (by decide),
   (diskstat_new_spec (some { f_bavail := 2 ^ 63, f_blocks := 2 ^ 63, f_frsize := 4 })).2.2
      { f_bavail := 2 ^ 63, f_blocks := 2 ^ 63, f_frsize := 4 } rfl
      (Or.inl (by norm_num))⟩

end Vrec
